import Mathlib

/-!
Shallow embedding of the overseer worker's job-execution engine
(cmd_worker.go): the runTest pipeline (protocol-handler lookup, URI host
extraction, DNS resolution, address-family filtering, per-target retry
loop) and the notify result-message construction, together with the slice
of the probe contract the engine consumes.  External effects (the
protocol-handler registry, url.Parse, net.LookupIP, probe execution, the
clock) are supplied as an explicit environment; the engine's observable
behaviour is returned as a trace: the messages pushed onto the results
queue, the targets passed to RunTest, the number of RetryDelay sleeps and
the outcome.
-/

namespace Overseer

/-- isLeadOf a b is true when the list a is an initial segment of b. -/
def isLeadOf : List Char → List Char → Bool
  | [], _ => true
  | _ :: _, [] => false
  | a :: as, b :: bs => a == b && isLeadOf as bs

/-- hasSubList pat l is true when pat occurs contiguously inside l. -/
def hasSubList (pat : List Char) : List Char → Bool
  | [] => isLeadOf pat []
  | c :: cs => isLeadOf pat (c :: cs) || hasSubList pat cs

/-- strContains s pat mirrors Go strings.Contains(s, pat). -/
def strContains (s pat : String) : Bool :=
  hasSubList pat.data s.data

/-- Test mirrors the parsed check (test.Test).  The Go field Type is
renamed Ty because Type is reserved in Lean; Arguments is the
string-to-string argument map, as an association list. -/
structure Test where
  Ty : String
  Target : String
  Input : String
  Arguments : List (String × String)
deriving DecidableEq, Repr

/-- WorkerCmd holds the worker options runTest consults (workerCmd in
cmd_worker.go).  Durations are abstract tick counts; RetryCount is the Go
int flag, modelled as a natural number. -/
structure WorkerCmd where
  IPv4 : Bool
  IPv6 : Bool
  Retry : Bool
  RetryCount : Nat
  RetryDelay : Nat
  Timeout : Nat
  Verbose : Bool
deriving DecidableEq, Repr

/-- IPAddr abstracts a net.IP as the engine observes it: whether To4()
returns non-nil, whether To16() returns non-nil, and its String()
rendering. -/
structure IPAddr where
  to4 : Bool
  to16 : Bool
  str : String
deriving DecidableEq, Repr

/-- Probe is the slice of the protocol-handler contract the engine
consumes: ShouldResolveHostname() and RunTest.  The RunTest outcome may
vary with the target and the attempt number; none is a nil error, some e a
failure with message e.  Arguments() and Example() are
documentation-only and have no runtime role in the engine. -/
structure Probe where
  shouldResolveHostname : Bool
  run : String → Nat → Option String

/-- k8sSvcProbe models the k8s-svc protocol handler as the engine sees it:
its ShouldResolveHostname body in the k8s-svc source returns false; its
RunTest outcome is left abstract (a parameter), the check being a remote
cluster-API call. -/
def k8sSvcProbe (run : String → Nat → Option String) : Probe :=
  { shouldResolveHostname := false, run := run }

/-- Env supplies the engine's external collaborators: the protocol-handler
registry lookup, URI host extraction (url.Parse followed by Hostname(),
consulted only when the target contains "://"), DNS resolution
(net.LookupIP) and the clock.  The registry lookup protocols.ProtocolHandler
is code of this repository not under src/; modelled from the spec: a lookup
by an unknown type name is surfaced to the caller (none) rather than a
crash. -/
structure Env where
  protocolHandler : String → Option Probe
  urlHost : String → Except String String
  lookupIP : String → Except String (List IPAddr)
  now : Nat

/-- mapSet m k v models Go map assignment m[k] = v on a string map rendered
as an association list: overwrite the existing entry or append a new
one. -/
def mapSet (m : List (String × String)) (k v : String) : List (String × String) :=
  if (m.lookup k).isSome then m.map (fun kv => if kv.1 = k then (k, v) else kv)
  else m ++ [(k, v)]

/-- notifyMsg is the JSON object built by workerCmd.notify: the base map
with result "passed", overwritten to "failed" plus an error field when the
test result is a non-nil error.  The time field renders the unix
timestamp. -/
def notifyMsg (t : Test) (result : Option String) (now : Nat) : List (String × String) :=
  let msg := [("input", t.Input), ("result", "passed"), ("target", t.Target),
              ("time", toString now), ("type", t.Ty)]
  match result with
  | none => msg
  | some e => mapSet (mapSet msg "result" "failed") "error" e

/-- splitSpaceAux splits a character list at spaces, accumulating the
current word reversed. -/
def splitSpaceAux : List Char → List Char → List String
  | [], cur => [String.mk cur.reverse]
  | c :: cs, cur =>
    if c = ' ' then String.mk cur.reverse :: splitSpaceAux cs []
    else splitSpaceAux cs (c :: cur)

/-- splitSpace splits a string into its space-separated tokens. -/
def splitSpace (s : String) : List String := splitSpaceAux s.data []

/-- joinSpace joins tokens back with single spaces. -/
def joinSpace : List String → String
  | [] => ""
  | [w] => w
  | w :: ws => w ++ " " ++ joinSpace ws

/-- censorTokens replaces every token that follows a token containing
"password" with the marker CENSORED. -/
def censorTokens : List String → Bool → List String
  | [], _ => []
  | w :: ws, hide =>
    (if hide then "CENSORED" else w) :: censorTokens ws (strContains w "password")

/-- Modelled from the spec: test.Test.Sanitize is code of this repository
that is not under src/ (only its caller runTest is).  The spec says the
sanitized Input is the original Input with credential-shaped substrings
redacted.  We model the redaction as: split the Input into space-separated
tokens and replace every token following a token that contains "password"
with CENSORED. -/
def sanitize (s : String) : String :=
  joinSpace (censorTokens (splitSpace s) false)

/-- maxAttempts: RetryCount attempts when retrying is enabled, else a
single attempt (maxAttempts = attempt + 1 with attempt still 0). -/
def maxAttempts (w : WorkerCmd) : Nat :=
  if w.Retry then w.RetryCount else 1

/-- attemptLoopAux mirrors the engine's retry loop.  k is the number of
attempts already made, fuel the attempts remaining, res the current value
of the result variable (initially nil).  It returns (number of RunTest
invocations, number of RetryDelay sleeps, final result).  A success ends
the loop at once; every failing attempt sleeps once, the final attempt
included, exactly as the else branch of the source loop does. -/
def attemptLoopAux (run : Nat → Option String) :
    Nat → Nat → Option String → Nat × Nat × Option String
  | _, 0, res => (0, 0, res)
  | k, fuel + 1, _ =>
    match run k with
    | none => (1, 0, none)
    | some e =>
      let r := attemptLoopAux run (k + 1) fuel (some e)
      (r.1 + 1, r.2.1 + 1, r.2.2)

/-- attemptLoop runs the retry loop from a fresh state: no attempts made,
maxA attempts remaining, result initially nil. -/
def attemptLoop (run : Nat → Option String) (maxA : Nat) : Nat × Nat × Option String :=
  attemptLoopAux run 0 maxA none

/-- perTargetCopy is the per-target copy built before notification: Target
replaced by the effective target, Input by the sanitized Input; the other
fields are taken unchanged from the original test. -/
def perTargetCopy (tst : Test) (target : String) : Test :=
  { tst with Target := target, Input := sanitize tst.Input }

/-- effectiveTargets filters the resolved addresses by enabled address
family, exactly as the loop over ips does: an address with a 4-byte form is
kept when IPv4 is enabled; an address with a 16-byte form and no 4-byte
form is kept when IPv6 is enabled. -/
def effectiveTargets (w : WorkerCmd) (ips : List IPAddr) : List String :=
  ips.foldl
    (fun acc ip =>
      let acc2 := if ip.to4 then (if w.IPv4 then acc ++ [ip.str] else acc) else acc
      if ip.to16 && !ip.to4 then (if w.IPv6 then acc2 ++ [ip.str] else acc2) else acc2)
    []

/-- RunOutcome: either runTest returns (with a nil or non-nil error), or
the Go code would panic (nil protocol-handler dereference). -/
inductive RunOutcome
  | crash
  | ret (err : Option String)
deriving DecidableEq, Repr

/-- RunResult is the observable trace of one runTest call: the messages
pushed onto the results queue in order, the targets passed to RunTest (one
entry per invocation, in order), the number of RetryDelay sleeps, and the
outcome. -/
structure RunResult where
  msgs : List (List (String × String))
  calls : List String
  sleeps : Nat
  outcome : RunOutcome
deriving DecidableEq, Repr

/-- stepTarget processes one effective target: run the retry loop, then
notify with the per-target copy and the final result. -/
def stepTarget (w : WorkerCmd) (env : Env) (tst : Test) (probe : Probe)
    (st : RunResult) (target : String) : RunResult :=
  let r := attemptLoop (probe.run target) (maxAttempts w)
  { st with
    msgs := st.msgs ++ [notifyMsg (perTargetCopy tst target) r.2.2 env.now],
    calls := st.calls ++ List.replicate r.1 target,
    sleeps := st.sleeps + r.2.1 }

/-- runTest embeds workerCmd.runTest: look up the protocol handler, strip a
URI down to its host, resolve the target, filter by address family, and
run the retry loop plus notification for each effective target.  The
source never checks the handler lookup against nil: with an unknown test
type the first RunTest call would dereference a nil interface, modelled as
RunOutcome.crash (reached exactly when there is at least one effective
target and at least one attempt; the crash happens inside the first
attempt, before any notification). -/
def runTest (w : WorkerCmd) (env : Env) (tst : Test) : RunResult :=
  match (if strContains tst.Target "://" then env.urlHost tst.Target
         else Except.ok tst.Target) with
  | Except.error e => ⟨[], [], 0, RunOutcome.ret (some e)⟩
  | Except.ok host =>
    match env.lookupIP host with
    | Except.error e =>
      ⟨[notifyMsg tst (some ("Failed to resolve name " ++ host)) env.now], [], 0,
        RunOutcome.ret (some e)⟩
    | Except.ok ips =>
      let targets := effectiveTargets w ips
      match env.protocolHandler tst.Ty with
      | none =>
        if targets.isEmpty || maxAttempts w = 0 then
          ⟨targets.map (fun t => notifyMsg (perTargetCopy tst t) none env.now), [], 0,
            RunOutcome.ret none⟩
        else ⟨[], [], 0, RunOutcome.crash⟩
      | some probe =>
        targets.foldl (stepTarget w env tst probe) ⟨[], [], 0, RunOutcome.ret none⟩

/-! Helper lemmas about the notification message. -/

/-- The key list of a notification message: the five base keys, plus error
exactly when the result is a failure. -/
theorem notifyMsg_keys (t : Test) (r : Option String) (now : Nat) :
    (notifyMsg t r now).map Prod.fst =
      ["input", "result", "target", "time", "type"] ++
        (match r with | none => [] | some _ => ["error"]) := by
  cases r <;> rfl

/-- The result field is passed on a nil outcome and failed on an error. -/
theorem notifyMsg_result (t : Test) (r : Option String) (now : Nat) :
    (notifyMsg t r now).lookup "result" =
      some (match r with | none => "passed" | some _ => "failed") := by
  cases r <;> rfl

/-- A passing message has no error field. -/
theorem notifyMsg_error_none (t : Test) (now : Nat) :
    (notifyMsg t none now).lookup "error" = none := rfl

/-- A failing message's error field is the error text. -/
theorem notifyMsg_error_some (t : Test) (e : String) (now : Nat) :
    (notifyMsg t (some e) now).lookup "error" = some e := rfl

/-- The input field is the notified test's Input. -/
theorem notifyMsg_input (t : Test) (r : Option String) (now : Nat) :
    (notifyMsg t r now).lookup "input" = some t.Input := by
  cases r <;> rfl

/-- The target field is the notified test's Target. -/
theorem notifyMsg_target (t : Test) (r : Option String) (now : Nat) :
    (notifyMsg t r now).lookup "target" = some t.Target := by
  cases r <;> rfl

/-! Helper lemmas about address-family filtering. -/

/-- The effective-target list is the resolved list filtered to the enabled
address families (in resolution order), rendered as strings. -/
theorem effectiveTargets_eq_filter (w : WorkerCmd) (ips : List IPAddr) :
    effectiveTargets w ips =
      (ips.filter fun ip =>
        (ip.to4 && w.IPv4) || (ip.to16 && !ip.to4 && w.IPv6)).map IPAddr.str := by
  have aux : ∀ (l : List IPAddr) (acc : List String),
      l.foldl (fun acc ip =>
        let acc2 := if ip.to4 then (if w.IPv4 then acc ++ [ip.str] else acc) else acc
        if ip.to16 && !ip.to4 then (if w.IPv6 then acc2 ++ [ip.str] else acc2) else acc2) acc =
      acc ++ (l.filter fun ip =>
        (ip.to4 && w.IPv4) || (ip.to16 && !ip.to4 && w.IPv6)).map IPAddr.str := by
    intro l
    induction l with
    | nil => intro acc; simp
    | cons ip l ih =>
      intro acc
      rw [List.foldl_cons, ih]
      cases h4 : ip.to4 <;> cases h6 : ip.to16 <;>
        cases hw4 : w.IPv4 <;> cases hw6 : w.IPv6 <;>
        simp [h4, h6, hw4, hw6, List.filter_cons]
  simpa [effectiveTargets] using aux ips []

/-! Helper lemmas about the retry loop. -/

/-- attemptLoopAux on zero remaining attempts returns the carried result. -/
theorem attemptLoopAux_zero (run : Nat → Option String) (k : Nat) (res : Option String) :
    attemptLoopAux run k 0 res = (0, 0, res) := rfl

/-- One unfolding step of the retry loop. -/
theorem attemptLoopAux_step (run : Nat → Option String) (k fuel : Nat) (res : Option String) :
    attemptLoopAux run k (fuel + 1) res =
      match run k with
      | none => (1, 0, none)
      | some e =>
        ((attemptLoopAux run (k + 1) fuel (some e)).1 + 1,
         (attemptLoopAux run (k + 1) fuel (some e)).2.1 + 1,
         (attemptLoopAux run (k + 1) fuel (some e)).2.2) := rfl

/-- If every one of the first m + 1 attempts fails, the retry loop makes
m + 1 invocations, sleeps m + 1 times (the final failure included) and
keeps the last error. -/
theorem attemptLoopAux_fail_all (run : Nat → Option String) (e : Nat → String) :
    ∀ (m k : Nat) (res : Option String),
      (∀ j, j < m + 1 → run (k + j) = some (e (k + j))) →
      attemptLoopAux run k (m + 1) res = (m + 1, m + 1, some (e (k + m))) := by
  intro m
  induction m with
  | zero =>
    intro k res h
    have h0 := h 0 (by omega)
    simp only [Nat.add_zero] at h0
    rw [attemptLoopAux_step, h0]
    rfl
  | succ m ih =>
    intro k res h
    have h0 := h 0 (by omega)
    simp only [Nat.add_zero] at h0
    have hrest : ∀ j, j < m + 1 → run (k + 1 + j) = some (e (k + 1 + j)) := by
      intro j hj
      have := h (j + 1) (by omega)
      rwa [show k + (j + 1) = k + 1 + j by omega] at this
    have hr := ih (k + 1) (some (e k)) hrest
    rw [attemptLoopAux_step, h0]
    dsimp only
    rw [hr, show k + 1 + m = k + (m + 1) by omega]

/-- attemptLoop form of the all-failures lemma. -/
theorem attemptLoop_fail_all (run : Nat → Option String) (e : Nat → String) (m : Nat)
    (h : ∀ j, j < m + 1 → run j = some (e j)) :
    attemptLoop run (m + 1) = (m + 1, m + 1, some (e m)) := by
  have := attemptLoopAux_fail_all run e m 0 none
    (by intro j hj; simpa using h j hj)
  simpa [attemptLoop] using this

/-- If the first i attempts fail and attempt i (0-based) succeeds, with i
within the attempt budget, the retry loop makes i + 1 invocations, sleeps
i times and ends with a nil result. -/
theorem attemptLoopAux_succ_at (run : Nat → Option String) :
    ∀ (i fuel k : Nat) (res : Option String), i < fuel →
      (∀ j, j < i → run (k + j) ≠ none) → run (k + i) = none →
      attemptLoopAux run k fuel res = (i + 1, i, none) := by
  intro i
  induction i with
  | zero =>
    intro fuel k res hf hfail hs
    cases fuel with
    | zero => omega
    | succ m =>
      simp only [Nat.add_zero] at hs
      rw [attemptLoopAux_step, hs]
  | succ i ih =>
    intro fuel k res hf hfail hs
    cases fuel with
    | zero => omega
    | succ m =>
      have h0 : run k ≠ none := by
        have := hfail 0 (by omega)
        simpa using this
      obtain ⟨e0, he0⟩ : ∃ e0, run k = some e0 := by
        cases hr : run k with
        | none => exact absurd hr h0
        | some e0 => exact ⟨e0, rfl⟩
      have hrest : ∀ j, j < i → run (k + 1 + j) ≠ none := by
        intro j hj
        have := hfail (j + 1) (by omega)
        rwa [show k + (j + 1) = k + 1 + j by omega] at this
      have hs' : run (k + 1 + i) = none := by
        rwa [show k + (i + 1) = k + 1 + i by omega] at hs
      have hr := ih m (k + 1) (some e0) (by omega) hrest hs'
      rw [attemptLoopAux_step, he0]
      dsimp only
      rw [hr]

/-- attemptLoop form of the success lemma. -/
theorem attemptLoop_succ_at (run : Nat → Option String) (i maxA : Nat) (hf : i < maxA)
    (hfail : ∀ j, j < i → run j ≠ none) (hs : run i = none) :
    attemptLoop run maxA = (i + 1, i, none) := by
  have := attemptLoopAux_succ_at run i maxA 0 none hf
    (by intro j hj; simpa using hfail j hj) (by simpa using hs)
  simpa [attemptLoop] using this

/-- With at least one attempt available, the retry loop invokes RunTest at
least once. -/
theorem attemptLoop_calls_pos (run : Nat → Option String) (m : Nat) :
    1 ≤ (attemptLoop run (m + 1)).1 := by
  unfold attemptLoop
  rw [attemptLoopAux_step]
  cases h : run 0 <;> simp [h]

/-! Characterization of the engine on the three resolution outcomes. -/

/-- On the target-processing fold: starting from any accumulator, the fold
appends one message per target, the per-target invocation batches, and the
per-target sleep counts, leaving the outcome alone. -/
theorem foldl_stepTarget (w : WorkerCmd) (env : Env) (tst : Test) (probe : Probe) :
    ∀ (targets : List String) (acc : RunResult),
      targets.foldl (stepTarget w env tst probe) acc =
        { msgs := acc.msgs ++ targets.map (fun t =>
            notifyMsg (perTargetCopy tst t)
              (attemptLoop (probe.run t) (maxAttempts w)).2.2 env.now),
          calls := acc.calls ++ (targets.map (fun t =>
            List.replicate (attemptLoop (probe.run t) (maxAttempts w)).1 t)).flatten,
          sleeps := acc.sleeps + (targets.map (fun t =>
            (attemptLoop (probe.run t) (maxAttempts w)).2.1)).sum,
          outcome := acc.outcome } := by
  intro targets
  induction targets with
  | nil => intro acc; simp
  | cons t ts ih =>
    intro acc
    simp [List.foldl_cons, ih, stepTarget, Nat.add_assoc, List.append_assoc]

/-- When the host survives URI extraction, resolution succeeds and the
handler is registered, runTest notifies once per effective target, with the
per-target retry trace. -/
theorem runTest_resolved (w : WorkerCmd) (env : Env) (tst : Test) (probe : Probe)
    (host : String) (ips : List IPAddr)
    (hhost : (if strContains tst.Target "://" then env.urlHost tst.Target
              else Except.ok tst.Target) = Except.ok host)
    (hip : env.lookupIP host = Except.ok ips)
    (hreg : env.protocolHandler tst.Ty = some probe) :
    runTest w env tst =
      { msgs := (effectiveTargets w ips).map (fun t =>
          notifyMsg (perTargetCopy tst t)
            (attemptLoop (probe.run t) (maxAttempts w)).2.2 env.now),
        calls := ((effectiveTargets w ips).map (fun t =>
          List.replicate (attemptLoop (probe.run t) (maxAttempts w)).1 t)).flatten,
        sleeps := ((effectiveTargets w ips).map (fun t =>
          (attemptLoop (probe.run t) (maxAttempts w)).2.1)).sum,
        outcome := RunOutcome.ret none } := by
  unfold runTest
  rw [hhost]
  dsimp only
  rw [hip]
  dsimp only
  rw [hreg]
  dsimp only
  simpa using foldl_stepTarget w env tst probe (effectiveTargets w ips)
    ⟨[], [], 0, RunOutcome.ret none⟩

/-- When the host survives URI extraction and resolution fails, runTest
notifies exactly once with the synthetic resolution-failure error, makes no
probe invocation, and returns the lookup error. -/
theorem runTest_resolveFail (w : WorkerCmd) (env : Env) (tst : Test) (host e : String)
    (hhost : (if strContains tst.Target "://" then env.urlHost tst.Target
              else Except.ok tst.Target) = Except.ok host)
    (hip : env.lookupIP host = Except.error e) :
    runTest w env tst =
      ⟨[notifyMsg tst (some ("Failed to resolve name " ++ host)) env.now], [], 0,
        RunOutcome.ret (some e)⟩ := by
  unfold runTest
  rw [hhost]
  dsimp only
  rw [hip]

/-! Concrete fixtures used by the claim witnesses and counterexamples. -/

/-- wDefault is the worker configuration built from the SetFlags defaults:
both address families enabled, retrying enabled with RetryCount 5 and a
five-tick RetryDelay, ten-tick timeout, quiet. -/
def wDefault : WorkerCmd := ⟨true, true, true, 5, 5, 10, false⟩

/-- wV4only disables IPv6 tests. -/
def wV4only : WorkerCmd := ⟨true, false, true, 5, 5, 10, false⟩

/-- wRetry2 retries with RetryCount 2. -/
def wRetry2 : WorkerCmd := ⟨true, true, true, 2, 5, 10, false⟩

/-- ip4Ex: an IPv4 address (To4 and To16 both non-nil). -/
def ip4Ex : IPAddr := ⟨true, true, "93.184.216.34"⟩

/-- ip6Ex: an IPv6 address (only To16 non-nil). -/
def ip6Ex : IPAddr := ⟨false, true, "2606:2800:220:1:248:1893:25c8:1946"⟩

/-- probePass: a probe that always passes. -/
def probePass : Probe := ⟨true, fun _ _ => none⟩

/-- probeFlaky: a probe whose first attempt fails and whose later attempts
pass. -/
def probeFlaky : Probe := ⟨true, fun _ j => if j = 0 then some "connection refused" else none⟩

/-- probeFail2: a probe that fails every attempt, with distinct messages on
the first and later attempts. -/
def probeFail2 : Probe := ⟨true, fun _ j => some (if j = 0 then "timeout A" else "timeout B")⟩

/-- envPass: every type is handled by probePass, the host resolves to one
IPv4 and one IPv6 address. -/
def envPass : Env :=
  ⟨fun _ => some probePass, fun s => Except.ok s, fun _ => Except.ok [ip4Ex, ip6Ex], 42⟩

/-- envFlaky: every type is handled by probeFlaky, the host resolves to a
single IPv4 address. -/
def envFlaky : Env :=
  ⟨fun _ => some probeFlaky, fun s => Except.ok s, fun _ => Except.ok [ip4Ex], 42⟩

/-- envFail2: every type is handled by probeFail2, the host resolves to a
single IPv4 address. -/
def envFail2 : Env :=
  ⟨fun _ => some probeFail2, fun s => Except.ok s, fun _ => Except.ok [ip4Ex], 42⟩

/-- envNoHost: every type is handled by probePass but DNS resolution fails
for every host. -/
def envNoHost : Env :=
  ⟨fun _ => some probePass, fun s => Except.ok s,
   fun host => Except.error ("lookup " ++ host ++ ": no such host"), 42⟩

/-- envUnknownType: the registry knows no type at all; hosts resolve to a
single IPv4 address. -/
def envUnknownType : Env :=
  ⟨fun _ => none, fun s => Except.ok s, fun _ => Except.ok [ip4Ex], 42⟩

/-- tstEx: a plain check against a hostname target. -/
def tstEx : Test := ⟨"ssh", "mail.example.com", "mail.example.com must run ssh", []⟩

/-- tstSecret: a check whose Input carries a credential-shaped substring
and whose target does not resolve. -/
def tstSecret : Test :=
  ⟨"mysql", "db.internal.invalid",
   "db.internal.invalid must run mysql with password s3cr3t", []⟩

/-- k8sEnv: the registry serves the k8s-svc probe; DNS resolution fails for
every host (the repository example target "default/kubernetes" is a
namespace/service identifier, not a resolvable name). -/
def k8sEnv : Env :=
  ⟨fun ty => if ty = "k8s-svc" then some (k8sSvcProbe (fun _ _ => none)) else none,
   fun s => Except.ok s,
   fun host => Except.error ("lookup " ++ host ++ ": no such host"), 111⟩

/-- k8sTst: the repository's own example check for the k8s-svc probe. -/
def k8sTst : Test :=
  ⟨"k8s-svc", "default/kubernetes", "default/kubernetes must run k8s-svc", []⟩

/-! Claim theorems. -/

/-- C1 (code behaviour at the failing input): the k8s-svc probe's
ShouldResolveHostname is false, yet runTest never consults it — for the
repository's own example check "default/kubernetes must run k8s-svc" the
engine performs DNS resolution on the non-hostname Target (observable as
the single resolution-failure Result) and invokes the probe's RunTest zero
times, instead of skipping resolution and running the probe once against
the original Target string. -/
theorem C1_resolution_not_skipped :
    (k8sSvcProbe (fun _ _ => none)).shouldResolveHostname = false ∧
    runTest wDefault k8sEnv k8sTst =
      ⟨[notifyMsg k8sTst (some "Failed to resolve name default/kubernetes") 111], [], 0,
        RunOutcome.ret (some "lookup default/kubernetes: no such host")⟩ :=
  ⟨rfl, rfl⟩

/-- C2 (code behaviour at the failing input): runTest never checks the
protocol-handler lookup against nil — with an unknown test type whose
target resolves to an address of an enabled family, the first RunTest call
dereferences a nil interface and the worker crashes (publishing nothing),
instead of logging the problem and dropping the job. -/
theorem C2_unknown_type_crashes :
    runTest wDefault envUnknownType tstEx = ⟨[], [], 0, RunOutcome.crash⟩ := rfl

/-- C9: every Result message built for publication has exactly the fields
input, result, target, time and type, plus an error field exactly when the
outcome is a failure; the result field is "passed" on a nil outcome and
"failed" exactly when the outcome is an error. -/
theorem C9_wire_format (t : Test) (r : Option String) (now : Nat) :
    ((notifyMsg t r now).map Prod.fst =
      ["input", "result", "target", "time", "type"] ++
        (match r with | none => [] | some _ => ["error"])) ∧
    (notifyMsg t r now).lookup "result" =
      some (match r with | none => "passed" | some _ => "failed") :=
  ⟨notifyMsg_keys t r now, notifyMsg_result t r now⟩

/-- C7: if DNS resolution of the Target fails, runTest publishes exactly
one Result whose result field is "failed" and whose error field describes
the resolution failure, invokes the probe's RunTest zero times, and ends
the job returning the lookup error. -/
theorem C7_resolution_failure (w : WorkerCmd) (env : Env) (tst : Test) (e : String)
    (hu : strContains tst.Target "://" = false)
    (hip : env.lookupIP tst.Target = Except.error e) :
    (runTest w env tst).msgs =
        [notifyMsg tst (some ("Failed to resolve name " ++ tst.Target)) env.now] ∧
    (notifyMsg tst (some ("Failed to resolve name " ++ tst.Target)) env.now).lookup
        "result" = some "failed" ∧
    (notifyMsg tst (some ("Failed to resolve name " ++ tst.Target)) env.now).lookup
        "error" = some ("Failed to resolve name " ++ tst.Target) ∧
    (runTest w env tst).calls = [] ∧
    (runTest w env tst).outcome = RunOutcome.ret (some e) := by
  have hhost : (if strContains tst.Target "://" then env.urlHost tst.Target
                else Except.ok tst.Target) = Except.ok tst.Target := by simp [hu]
  have h := runTest_resolveFail w env tst tst.Target e hhost hip
  rw [h]
  exact ⟨rfl, notifyMsg_result tst _ env.now,
    notifyMsg_error_some tst _ env.now, rfl, rfl⟩

/-- C7 witness: a concrete unresolvable host. -/
theorem C7_resolution_failure_witness :
    (runTest wDefault envNoHost tstEx).msgs =
        [notifyMsg tstEx (some ("Failed to resolve name " ++ tstEx.Target)) envNoHost.now] ∧
    (notifyMsg tstEx (some ("Failed to resolve name " ++ tstEx.Target)) envNoHost.now).lookup
        "result" = some "failed" ∧
    (notifyMsg tstEx (some ("Failed to resolve name " ++ tstEx.Target)) envNoHost.now).lookup
        "error" = some ("Failed to resolve name " ++ tstEx.Target) ∧
    (runTest wDefault envNoHost tstEx).calls = [] ∧
    (runTest wDefault envNoHost tstEx).outcome =
      RunOutcome.ret (some "lookup mail.example.com: no such host") :=
  C7_resolution_failure wDefault envNoHost tstEx
    "lookup mail.example.com: no such host" (by decide) rfl

/-- C10: if resolution succeeds but every resolved address belongs to a
disabled address family — the effective-target list is empty — runTest
invokes the probe zero times, publishes no Result at all, and returns
nil. -/
theorem C10_empty_targets (w : WorkerCmd) (env : Env) (tst : Test) (probe : Probe)
    (ips : List IPAddr)
    (hu : strContains tst.Target "://" = false)
    (hip : env.lookupIP tst.Target = Except.ok ips)
    (hreg : env.protocolHandler tst.Ty = some probe)
    (hempty : effectiveTargets w ips = []) :
    runTest w env tst = ⟨[], [], 0, RunOutcome.ret none⟩ := by
  have hhost : (if strContains tst.Target "://" then env.urlHost tst.Target
                else Except.ok tst.Target) = Except.ok tst.Target := by simp [hu]
  rw [runTest_resolved w env tst probe tst.Target ips hhost hip hreg, hempty]
  rfl

/-- C10 witness: an IPv6-only resolution with IPv6 disabled completes
silently. -/
theorem C10_empty_targets_witness :
    runTest wV4only
      ⟨fun _ => some probePass, fun s => Except.ok s, fun _ => Except.ok [ip6Ex], 42⟩
      tstEx = ⟨[], [], 0, RunOutcome.ret none⟩ :=
  C10_empty_targets wV4only
    ⟨fun _ => some probePass, fun s => Except.ok s, fun _ => Except.ok [ip6Ex], 42⟩
    tstEx probePass [ip6Ex] (by decide) rfl rfl (by decide)

/-- C6: when resolution succeeds, the engine publishes exactly one Result
per resolved address of an enabled family, in resolution order — the
target fields of the published messages are exactly the family-filtered
address list (an address with a valid 4-byte form counts as IPv4, one with
a 16-byte form and no 4-byte form as IPv6) — and no Result for an address
of a disabled family; with at least one attempt budgeted, every effective
target is passed to the probe's RunTest. -/
theorem C6_family_fanout (w : WorkerCmd) (env : Env) (tst : Test) (probe : Probe)
    (ips : List IPAddr)
    (hu : strContains tst.Target "://" = false)
    (hip : env.lookupIP tst.Target = Except.ok ips)
    (hreg : env.protocolHandler tst.Ty = some probe)
    (hatt : 1 ≤ maxAttempts w) :
    ((runTest w env tst).msgs.map (fun m => m.lookup "target") =
      (ips.filter fun ip =>
        (ip.to4 && w.IPv4) || (ip.to16 && !ip.to4 && w.IPv6)).map
          (fun ip => some ip.str)) ∧
    (∀ t ∈ effectiveTargets w ips, t ∈ (runTest w env tst).calls) := by
  have hhost : (if strContains tst.Target "://" then env.urlHost tst.Target
                else Except.ok tst.Target) = Except.ok tst.Target := by simp [hu]
  rw [runTest_resolved w env tst probe tst.Target ips hhost hip hreg]
  constructor
  · rw [effectiveTargets_eq_filter]
    simp [List.map_map, Function.comp, notifyMsg_target, perTargetCopy]
  · intro t ht
    obtain ⟨m, hm⟩ : ∃ m, maxAttempts w = m + 1 := ⟨maxAttempts w - 1, by omega⟩
    have hpos : 1 ≤ (attemptLoop (probe.run t) (maxAttempts w)).1 := by
      rw [hm]; exact attemptLoop_calls_pos (probe.run t) m
    simp only [List.mem_flatten]
    refine ⟨List.replicate (attemptLoop (probe.run t) (maxAttempts w)).1 t, ?_, ?_⟩
    · exact List.mem_map.mpr ⟨t, ht, rfl⟩
    · exact List.mem_replicate.mpr ⟨by omega, rfl⟩

/-- C6 witness: a dual-stack resolution with IPv6 disabled yields exactly
the IPv4 Result and an RunTest invocation against the IPv4 address. -/
theorem C6_family_fanout_witness :
    ((runTest wV4only envPass tstEx).msgs.map (fun m => m.lookup "target") =
      [some "93.184.216.34"]) ∧
    "93.184.216.34" ∈ (runTest wV4only envPass tstEx).calls := by
  have h := C6_family_fanout wV4only envPass tstEx probePass [ip4Ex, ip6Ex]
    (by decide) rfl rfl (by decide)
  exact ⟨h.1, h.2 "93.184.216.34" (by decide)⟩

/-- C8: each published Result is built from a per-target copy of the
original Test in which only Target (set to the effective target) and Input
(set to the sanitized Input) differ — Ty and Arguments are the original's
— and every copy is derived from the unchanged original Test value. -/
theorem C8_per_target_copy (w : WorkerCmd) (env : Env) (tst : Test) (probe : Probe)
    (ips : List IPAddr)
    (hu : strContains tst.Target "://" = false)
    (hip : env.lookupIP tst.Target = Except.ok ips)
    (hreg : env.protocolHandler tst.Ty = some probe) :
    (runTest w env tst).msgs = (effectiveTargets w ips).map (fun t =>
      notifyMsg ⟨tst.Ty, t, sanitize tst.Input, tst.Arguments⟩
        (attemptLoop (probe.run t) (maxAttempts w)).2.2 env.now) := by
  have hhost : (if strContains tst.Target "://" then env.urlHost tst.Target
                else Except.ok tst.Target) = Except.ok tst.Target := by simp [hu]
  rw [runTest_resolved w env tst probe tst.Target ips hhost hip hreg]
  rfl

/-- C8 witness: a dual-stack fan-out into two per-target copies, both
derived from the original test. -/
theorem C8_per_target_copy_witness :
    (runTest wDefault envPass tstEx).msgs = [ip4Ex.str, ip6Ex.str].map (fun t =>
      notifyMsg ⟨tstEx.Ty, t, sanitize tstEx.Input, tstEx.Arguments⟩
        (attemptLoop (probePass.run t) (maxAttempts wDefault)).2.2 envPass.now) := by
  have h := C8_per_target_copy wDefault envPass tstEx probePass [ip4Ex, ip6Ex]
    (by decide) rfl rfl
  simpa using h

/-- C5: with retrying enabled, RetryCount = N, and the probe succeeding on
attempt k (1-based, k ≤ N, every earlier attempt failing) for the single
effective target, RunTest is invoked exactly k times — the attempt loop
ends immediately on success — and the published Result for that target is
"passed". -/
theorem C5_success_ends_loop (w : WorkerCmd) (env : Env) (tst : Test) (probe : Probe)
    (ips : List IPAddr) (t : String) (k : Nat)
    (hu : strContains tst.Target "://" = false)
    (hip : env.lookupIP tst.Target = Except.ok ips)
    (hreg : env.protocolHandler tst.Ty = some probe)
    (ht : effectiveTargets w ips = [t])
    (hretry : w.Retry = true)
    (hk1 : 1 ≤ k) (hkN : k ≤ w.RetryCount)
    (hfail : ∀ j, j < k - 1 → probe.run t j ≠ none)
    (hs : probe.run t (k - 1) = none) :
    (runTest w env tst).calls = List.replicate k t ∧
    (runTest w env tst).msgs = [notifyMsg (perTargetCopy tst t) none env.now] ∧
    (notifyMsg (perTargetCopy tst t) none env.now).lookup "result" = some "passed" := by
  have hhost : (if strContains tst.Target "://" then env.urlHost tst.Target
                else Except.ok tst.Target) = Except.ok tst.Target := by simp [hu]
  have hmax : maxAttempts w = w.RetryCount := by simp [maxAttempts, hretry]
  have hloop : attemptLoop (probe.run t) (maxAttempts w) = (k, k - 1, none) := by
    have h := attemptLoop_succ_at (probe.run t) (k - 1) (maxAttempts w)
      (by rw [hmax]; omega) hfail hs
    rwa [show k - 1 + 1 = k by omega] at h
  rw [runTest_resolved w env tst probe tst.Target ips hhost hip hreg, ht]
  refine ⟨by simp [hloop], by simp [hloop], ?_⟩
  simpa using notifyMsg_result (perTargetCopy tst t) none env.now

/-- C5 witness: first attempt fails, second succeeds, RetryCount 5: two
invocations and a passed Result. -/
theorem C5_success_ends_loop_witness :
    (runTest wDefault envFlaky tstEx).calls = List.replicate 2 "93.184.216.34" ∧
    (runTest wDefault envFlaky tstEx).msgs =
      [notifyMsg (perTargetCopy tstEx "93.184.216.34") none envFlaky.now] ∧
    (notifyMsg (perTargetCopy tstEx "93.184.216.34") none envFlaky.now).lookup "result" =
      some "passed" :=
  C5_success_ends_loop wDefault envFlaky tstEx probeFlaky [ip4Ex] "93.184.216.34" 2
    (by decide) rfl rfl (by decide) rfl (by decide) (by decide)
    (by intro j hj
        have hj0 : j = 0 := by omega
        subst hj0
        simp [probeFlaky])
    rfl

/-- C4 counterexample: with retrying enabled, RetryCount = 2 and the probe
failing on both attempts for its single effective target, RunTest is
invoked twice as the claim states, but the engine sleeps twice — once
after the final attempt as well — not the claimed N - 1 = 1 times. -/
theorem C4_counterexample :
    (runTest wRetry2 envFail2 tstEx).calls.length = 2 ∧
    (runTest wRetry2 envFail2 tstEx).sleeps = 2 ∧
    ¬((runTest wRetry2 envFail2 tstEx).sleeps = 2 - 1) := by decide

/-- C4 (amended): with retrying enabled, RetryCount = N ≥ 1 and the probe
failing on every attempt for the single effective target, RunTest is
invoked exactly N times, N sleeps of RetryDelay occur — one after every
failed attempt, the final attempt included — and the published Result's
error equals the error of the last attempt. -/
theorem C4_all_attempts_fail (w : WorkerCmd) (env : Env) (tst : Test) (probe : Probe)
    (ips : List IPAddr) (t : String) (e : Nat → String)
    (hu : strContains tst.Target "://" = false)
    (hip : env.lookupIP tst.Target = Except.ok ips)
    (hreg : env.protocolHandler tst.Ty = some probe)
    (ht : effectiveTargets w ips = [t])
    (hretry : w.Retry = true)
    (hN : 1 ≤ w.RetryCount)
    (hfail : ∀ j, j < w.RetryCount → probe.run t j = some (e j)) :
    (runTest w env tst).calls = List.replicate w.RetryCount t ∧
    (runTest w env tst).sleeps = w.RetryCount ∧
    (runTest w env tst).msgs =
      [notifyMsg (perTargetCopy tst t) (some (e (w.RetryCount - 1))) env.now] ∧
    (notifyMsg (perTargetCopy tst t) (some (e (w.RetryCount - 1))) env.now).lookup
      "error" = some (e (w.RetryCount - 1)) := by
  have hhost : (if strContains tst.Target "://" then env.urlHost tst.Target
                else Except.ok tst.Target) = Except.ok tst.Target := by simp [hu]
  obtain ⟨m, hm⟩ : ∃ m, w.RetryCount = m + 1 := ⟨w.RetryCount - 1, by omega⟩
  have hmax : maxAttempts w = m + 1 := by simp [maxAttempts, hretry, hm]
  have hloop : attemptLoop (probe.run t) (maxAttempts w) = (m + 1, m + 1, some (e m)) := by
    rw [hmax]
    exact attemptLoop_fail_all (probe.run t) e m (fun j hj => hfail j (by omega))
  rw [runTest_resolved w env tst probe tst.Target ips hhost hip hreg, ht, hm]
  refine ⟨by simp [hloop], by simp [hloop], by simp [hloop], ?_⟩
  simpa using notifyMsg_error_some (perTargetCopy tst t) (e (m + 1 - 1)) env.now

/-- C4 amended witness: RetryCount 2, both attempts fail with distinct
errors: two invocations, two sleeps, and the second attempt's error in the
published Result. -/
theorem C4_all_attempts_fail_witness :
    (runTest wRetry2 envFail2 tstEx).calls = List.replicate wRetry2.RetryCount "93.184.216.34" ∧
    (runTest wRetry2 envFail2 tstEx).sleeps = wRetry2.RetryCount ∧
    (runTest wRetry2 envFail2 tstEx).msgs =
      [notifyMsg (perTargetCopy tstEx "93.184.216.34")
        (some (if wRetry2.RetryCount - 1 = 0 then "timeout A" else "timeout B")) envFail2.now] ∧
    (notifyMsg (perTargetCopy tstEx "93.184.216.34")
        (some (if wRetry2.RetryCount - 1 = 0 then "timeout A" else "timeout B")) envFail2.now).lookup
      "error" = some (if wRetry2.RetryCount - 1 = 0 then "timeout A" else "timeout B") :=
  C4_all_attempts_fail wRetry2 envFail2 tstEx probeFail2 [ip4Ex] "93.184.216.34"
    (fun j => if j = 0 then "timeout A" else "timeout B")
    (by decide) rfl rfl (by decide) rfl (by decide) (fun j hj => rfl)

/-- C3 counterexample: when DNS resolution fails, the engine notifies the
original, unsanitized test — the credential-shaped substring "s3cr3t" of
the Input (which sanitize redacts) appears verbatim in the published input
field, falsifying the claim for the Result produced on resolution
failure. -/
theorem C3_counterexample :
    (runTest wDefault envNoHost tstSecret).msgs.map (fun m => m.lookup "input") =
      [some tstSecret.Input] ∧
    strContains tstSecret.Input "s3cr3t" = true ∧
    strContains (sanitize tstSecret.Input) "s3cr3t" = false := by decide

/-- C3 (amended): every Result published by the per-target loop carries the
sanitized form of the original Input in its input field; the single Result
produced on resolution failure instead carries the original, unsanitized
Input. -/
theorem C3_input_sanitization (w : WorkerCmd) (env : Env) (tst : Test)
    (hu : strContains tst.Target "://" = false) :
    ((runTest w env tst).msgs.all (fun m =>
      m.lookup "input" == some (match env.lookupIP tst.Target with
        | Except.ok _ => sanitize tst.Input
        | Except.error _ => tst.Input))) = true := by
  have hhost : (if strContains tst.Target "://" then env.urlHost tst.Target
                else Except.ok tst.Target) = Except.ok tst.Target := by simp [hu]
  cases hip : env.lookupIP tst.Target with
  | error e =>
    rw [runTest_resolveFail w env tst tst.Target e hhost hip]
    simp [notifyMsg_input]
  | ok ips =>
    cases hreg : env.protocolHandler tst.Ty with
    | some probe =>
      rw [runTest_resolved w env tst probe tst.Target ips hhost hip hreg]
      simp only [List.all_eq_true, List.mem_map]
      rintro m ⟨t, ht, rfl⟩
      simp [notifyMsg_input, perTargetCopy]
    | none =>
      unfold runTest
      rw [hhost]
      dsimp only
      rw [hip]
      dsimp only
      rw [hreg]
      dsimp only
      split
      · simp only [List.all_eq_true, List.mem_map]
        rintro m ⟨t, ht, rfl⟩
        simp [notifyMsg_input, perTargetCopy]
      · simp

/-- C3 amended witness: a passing dual-stack run publishes only sanitized
input fields. -/
theorem C3_input_sanitization_witness :
    ((runTest wDefault envPass tstSecret).msgs.all (fun m =>
      m.lookup "input" == some (match envPass.lookupIP tstSecret.Target with
        | Except.ok _ => sanitize tstSecret.Input
        | Except.error _ => tstSecret.Input))) = true :=
  C3_input_sanitization wDefault envPass tstSecret (by decide)

end Overseer
